import Mathlib

/-!
Verification of the aggregation–reduction–visualization pipeline of
`whatsapp_analyzer.py` (WhatsApp-Analyzer).

The Python source is shallowly embedded: each reduction and rendering
function becomes an executable Lean definition over lists, `Nat` counts,
and `ℚ` for Python's real-number arithmetic.  Python's `Counter(data)`
enumerates distinct keys in first-appearance order with their
multiplicities; `sorted(..., key=lambda x: x[1], reverse=True)` is a
stable sort (documented to keep records with equal keys in their original
order).  The stable descending sort is embedded as an insertion sort that
inserts an element before the first position whose count is not larger,
which produces exactly the count-descending, ties-in-original-order
sequence of the Python stable sort.
-/

namespace WhatsappAnalyzer

section Rank

variable {α : Type} [DecidableEq α]

/-- Keys of `Counter(data)` in first-appearance order: `seen` accumulates the
keys already emitted (structural recursion so terms evaluate by `rfl`). -/
def firstKeysAux (seen : List α) : List α → List α
  | [] => []
  | x :: xs => if x ∈ seen then firstKeysAux seen xs else x :: firstKeysAux (x :: seen) xs

def firstKeys (l : List α) : List α := firstKeysAux [] l

/-- Items of `Counter(data)` (equivalently
`dict(zip(Counter(data).keys(), Counter(data).values())).items()`):
distinct keys in first-appearance order, each with its multiplicity. -/
def counterItems (data : List α) : List (α × Nat) :=
  (firstKeys data).map fun k => (k, data.count k)

/-- Stable insertion step for a count-descending sort: walk past entries with a
strictly larger count, insert before the first entry whose count is ≤ the new
entry's count. -/
def insertByCount (x : α × Nat) : List (α × Nat) → List (α × Nat)
  | [] => [x]
  | y :: ys => if x.2 < y.2 then y :: insertByCount x ys else x :: y :: ys

/-- Stable count-descending sort, embedding Python's
`sorted(..., key=lambda x: x[1], reverse=True)`. -/
def sortByCountDesc : List (α × Nat) → List (α × Nat)
  | [] => []
  | x :: xs => insertByCount x (sortByCountDesc xs)

/-- `reduce_and_sort(data)` from the source: count occurrences per distinct
key, then sort by count descending (stable). -/
def reduce_and_sort (data : List α) : List (α × Nat) :=
  sortByCountDesc (counterItems data)

theorem mem_firstKeysAux {a : α} {l : List α} :
    ∀ {seen : List α}, a ∈ firstKeysAux seen l ↔ a ∈ l ∧ a ∉ seen := by
  induction l with
  | nil => intro seen; simp [firstKeysAux]
  | cons x xs ih =>
    intro seen
    by_cases hx : x ∈ seen
    · simp only [firstKeysAux, if_pos hx, ih, List.mem_cons]
      constructor
      · rintro ⟨h1, h2⟩; exact ⟨Or.inr h1, h2⟩
      · rintro ⟨h1 | h1, h2⟩
        · exact absurd (h1 ▸ hx) h2
        · exact ⟨h1, h2⟩
    · simp only [firstKeysAux, if_neg hx, List.mem_cons, ih]
      constructor
      · rintro (rfl | ⟨h1, h2⟩)
        · exact ⟨Or.inl rfl, hx⟩
        · exact ⟨Or.inr h1, fun hs => h2 (Or.inr hs)⟩
      · rintro ⟨rfl | h1, h2⟩
        · exact Or.inl rfl
        · by_cases hax : a = x
          · exact Or.inl hax
          · refine Or.inr ⟨h1, fun hs => ?_⟩
            rcases hs with h | h
            · exact hax h
            · exact h2 h

theorem mem_firstKeys {a : α} {l : List α} : a ∈ firstKeys l ↔ a ∈ l := by
  simp [firstKeys, mem_firstKeysAux]

theorem nodup_firstKeysAux {l : List α} :
    ∀ {seen : List α}, (firstKeysAux seen l).Nodup := by
  induction l with
  | nil => intro seen; simp [firstKeysAux]
  | cons x xs ih =>
    intro seen
    by_cases hx : x ∈ seen
    · simpa [firstKeysAux, if_pos hx] using ih
    · simp only [firstKeysAux, if_neg hx]
      refine List.Pairwise.cons ?_ ih
      intro b hb hbx
      refine (mem_firstKeysAux.1 hb).2 ?_
      rw [← hbx]
      exact List.mem_cons_self x seen

theorem nodup_firstKeys {l : List α} : (firstKeys l).Nodup := nodup_firstKeysAux

theorem sublist_firstKeysAux {l : List α} :
    ∀ {seen : List α}, (firstKeysAux seen l).Sublist l := by
  induction l with
  | nil => intro seen; simp [firstKeysAux]
  | cons x xs ih =>
    intro seen
    by_cases hx : x ∈ seen
    · simpa [firstKeysAux, if_pos hx] using List.Sublist.cons x ih
    · simpa [firstKeysAux, if_neg hx] using List.Sublist.cons₂ x ih

theorem sublist_firstKeys {l : List α} : (firstKeys l).Sublist l := sublist_firstKeysAux

omit [DecidableEq α] in
theorem insertByCount_perm (x : α × Nat) (l : List (α × Nat)) :
    List.Perm (insertByCount x l) (x :: l) := by
  induction l with
  | nil => exact List.Perm.refl _
  | cons y ys ih =>
    simp only [insertByCount]
    split
    · exact (ih.cons y).trans (List.Perm.swap x y ys)
    · exact List.Perm.refl _

omit [DecidableEq α] in
theorem sortByCountDesc_perm (l : List (α × Nat)) : List.Perm (sortByCountDesc l) l := by
  induction l with
  | nil => exact List.Perm.refl _
  | cons x xs ih =>
    exact (insertByCount_perm x (sortByCountDesc xs)).trans (ih.cons x)

omit [DecidableEq α] in
theorem insertByCount_sorted {x : α × Nat} {l : List (α × Nat)}
    (h : l.Pairwise fun a b => b.2 ≤ a.2) :
    (insertByCount x l).Pairwise fun a b => b.2 ≤ a.2 := by
  induction l with
  | nil => simp [insertByCount]
  | cons y ys ih =>
    rcases List.pairwise_cons.1 h with ⟨hy, hys⟩
    simp only [insertByCount]
    split
    · rename_i hxy
      refine List.pairwise_cons.2 ⟨?_, ih hys⟩
      intro b hb
      rcases List.mem_cons.1 ((insertByCount_perm x ys).mem_iff.1 hb) with rfl | hbys
      · exact le_of_lt hxy
      · exact hy b hbys
    · rename_i hxy
      push_neg at hxy
      refine List.pairwise_cons.2 ⟨?_, h⟩
      intro b hb
      rcases List.mem_cons.1 hb with rfl | hbys
      · exact hxy
      · exact le_trans (hy b hbys) hxy

omit [DecidableEq α] in
theorem sortByCountDesc_sorted (l : List (α × Nat)) :
    (sortByCountDesc l).Pairwise fun a b => b.2 ≤ a.2 := by
  induction l with
  | nil => simp [sortByCountDesc]
  | cons x xs ih => exact insertByCount_sorted ih

omit [DecidableEq α] in
theorem filter_insertByCount (x : α × Nat) (l : List (α × Nat)) (c : Nat) :
    (insertByCount x l).filter (fun p => p.2 == c) =
      if x.2 == c then x :: l.filter (fun p => p.2 == c)
      else l.filter (fun p => p.2 == c) := by
  induction l with
  | nil =>
    by_cases hxc : x.2 = c
    · simp [insertByCount, List.filter_cons, hxc]
    · simp [insertByCount, List.filter_cons, hxc]
  | cons y ys ih =>
    simp only [insertByCount]
    split
    · rename_i hxy
      by_cases hxc : x.2 = c
      · have hyc : ¬ y.2 = c := by omega
        simp [List.filter_cons, ih, hxc, hyc]
      · simp [List.filter_cons, ih, hxc]
    · rename_i hxy
      simp [List.filter_cons]

omit [DecidableEq α] in
theorem filter_sortByCountDesc (l : List (α × Nat)) (c : Nat) :
    (sortByCountDesc l).filter (fun p => p.2 == c) = l.filter (fun p => p.2 == c) := by
  induction l with
  | nil => rfl
  | cons x xs ih =>
    simp only [sortByCountDesc, filter_insertByCount, ih, List.filter_cons, beq_iff_eq]

theorem sum_counts_of_nodup_of_subset {ks : List α} :
    ∀ {l : List α}, ks.Nodup → (∀ a ∈ l, a ∈ ks) →
      ((ks.map fun k => l.count k).sum = l.length) := by
  induction ks with
  | nil =>
    intro l _ hsub
    cases l with
    | nil => simp
    | cons a l => exact absurd (hsub a (List.mem_cons_self a l)) (List.not_mem_nil a)
  | cons k ks ih =>
    intro l hnd hsub
    rcases List.pairwise_cons.1 hnd with ⟨hk, hnd'⟩
    have hsub' : ∀ a ∈ l.filter (fun y => y != k), a ∈ ks := by
      intro a ha
      rcases List.mem_filter.1 ha with ⟨hal, hak⟩
      have hane : a ≠ k := by simpa using hak
      rcases List.mem_cons.1 (hsub a hal) with rfl | h
      · exact absurd rfl hane
      · exact h
    have hcount : ∀ a ∈ ks, (l.filter (fun y => y != k)).count a = l.count a := by
      intro a ha
      refine List.count_filter ?_
      have : a ≠ k := fun h => (hk a ha) h.symm
      simpa using this
    have hlen : l.length = l.count k + (l.filter (fun y => y != k)).length := by
      have hsplit := List.length_eq_countP_add_countP (fun y => y == k) l
      rw [List.count_eq_countP, ← List.countP_eq_length_filter]
      rw [hsplit]
      congr 1
      refine List.countP_congr ?_
      intro a _
      simp [bne]
    calc ((k :: ks).map fun a => l.count a).sum
        = l.count k + (ks.map fun a => l.count a).sum := by simp
      _ = l.count k + (ks.map fun a => (l.filter (fun y => y != k)).count a).sum := by
          rw [List.map_congr_left (fun a ha => (hcount a ha).symm)]
      _ = l.count k + (l.filter (fun y => y != k)).length := by
          rw [ih hnd' hsub']
      _ = l.length := hlen.symm

theorem sum_counts_firstKeys (l : List α) :
    ((firstKeys l).map fun k => l.count k).sum = l.length :=
  sum_counts_of_nodup_of_subset nodup_firstKeys (fun _ ha => mem_firstKeys.2 ha)

theorem mem_counterItems {p : α × Nat} {data : List α} (h : p ∈ counterItems data) :
    p.1 ∈ data ∧ p.2 = data.count p.1 := by
  rcases List.mem_map.1 h with ⟨k, hk, rfl⟩
  exact ⟨mem_firstKeys.1 hk, rfl⟩

theorem mem_reduce_and_sort {p : α × Nat} {data : List α} (h : p ∈ reduce_and_sort data) :
    p.1 ∈ data ∧ p.2 = data.count p.1 :=
  mem_counterItems ((sortByCountDesc_perm (counterItems data)).mem_iff.1 h)

theorem reduce_and_sort_count_pos {p : α × Nat} {data : List α}
    (h : p ∈ reduce_and_sort data) : 0 < p.2 := by
  rcases mem_reduce_and_sort h with ⟨hmem, hcount⟩
  rw [hcount]
  exact List.count_pos_iff.2 hmem

end Rank

/-! Python strings are embedded as their character sequences (`List Char`),
so that `len`, `str.lower`, `str.isalnum` and `str.isnumeric` become
structural list operations.  `Char.isAlphanum`/`Char.isDigit` stand in for
Python's Unicode-aware character classes (they agree on ASCII, which covers
every concrete token in the claims). -/
abbrev PyStr : Type := List Char

/-- Python's `w.lower()`. -/
def pyLower (w : PyStr) : PyStr := w.map Char.toLower

/-- Python's `w.isalnum()`: nonempty and every character alphanumeric. -/
def pyIsalnum (w : PyStr) : Bool := !w.isEmpty && w.all Char.isAlphanum

/-- Python's `w.isnumeric()`: nonempty and every character numeric. -/
def pyIsnumeric (w : PyStr) : Bool := !w.isEmpty && w.all Char.isDigit

/-- `filter_single_word(w)` from the source:
`(len(w) > 1) and (w.isalnum()) and (not w.isnumeric()) and (w.lower() not in stop_words)`. -/
def filter_single_word (stop_words : List PyStr) (w : PyStr) : Bool :=
  decide (1 < w.length) && pyIsalnum w && !(pyIsnumeric w) && !(stop_words.contains (pyLower w))

/-- `reduce_and_filter_words(list_of_words)` from the source:
`[w.lower() for w in list_of_words if (len(w) > 1) and (w.isalnum()) and
(not w.isnumeric()) and (w.lower() not in stop_words)]`.  The comprehension's
condition is the same expression as `filter_single_word`. -/
def reduce_and_filter_words (stop_words : List PyStr) (list_of_words : List PyStr) : List PyStr :=
  (list_of_words.filter (filter_single_word stop_words)).map pyLower

/-- `reduce_fav_item`'s loop: `exist` is the accumulator of first keys already
emitted; an entry `i` is kept iff `i[1] > 0 and not i[0][0] in exist`. -/
def reduce_fav_item_aux {β γ : Type} [DecidableEq β] (exist : List β) :
    List ((β × γ) × Nat) → List ((β × γ) × Nat)
  | [] => []
  | i :: rest =>
    if 0 < i.2 ∧ i.1.1 ∉ exist then i :: reduce_fav_item_aux (i.1.1 :: exist) rest
    else reduce_fav_item_aux exist rest

/-- `reduce_fav_item(data)` from the source, starting from empty `exist`/`arr`. -/
def reduce_fav_item {β γ : Type} [DecidableEq β] (data : List ((β × γ) × Nat)) :
    List ((β × γ) × Nat) :=
  reduce_fav_item_aux [] data

section Favorites

variable {β γ : Type} [DecidableEq β]

theorem reduce_fav_item_aux_sublist (exist : List β) (data : List ((β × γ) × Nat)) :
    (reduce_fav_item_aux exist data).Sublist data := by
  induction data generalizing exist with
  | nil => simp [reduce_fav_item_aux]
  | cons i rest ih =>
    simp only [reduce_fav_item_aux]
    split
    · exact List.Sublist.cons₂ i (ih _)
    · exact List.Sublist.cons i (ih _)

theorem reduce_fav_item_aux_mem {exist : List β} {data : List ((β × γ) × Nat)}
    {i : (β × γ) × Nat} (h : i ∈ reduce_fav_item_aux exist data) :
    0 < i.2 ∧ i.1.1 ∉ exist := by
  induction data generalizing exist with
  | nil => simp [reduce_fav_item_aux] at h
  | cons j rest ih =>
    simp only [reduce_fav_item_aux] at h
    split at h
    · rename_i hcond
      rcases List.mem_cons.1 h with rfl | h2
      · exact hcond
      · rcases ih h2 with ⟨h3, h4⟩
        exact ⟨h3, fun hmem => h4 (List.mem_cons_of_mem _ hmem)⟩
    · exact ih h

theorem reduce_fav_item_aux_nodup (exist : List β) (data : List ((β × γ) × Nat)) :
    ((reduce_fav_item_aux exist data).map fun i => i.1.1).Nodup := by
  induction data generalizing exist with
  | nil => simp [reduce_fav_item_aux]
  | cons j rest ih =>
    simp only [reduce_fav_item_aux]
    split
    · rename_i hcond
      simp only [List.map_cons, List.nodup_cons]
      refine ⟨?_, ih _⟩
      intro hmem
      rcases List.mem_map.1 hmem with ⟨b, hb, hbeq⟩
      exact (reduce_fav_item_aux_mem hb).2 (hbeq ▸ List.mem_cons_self _ _)
    · exact ih _

theorem reduce_fav_item_aux_find {exist : List β} {data : List ((β × γ) × Nat)}
    (hsorted : data.Pairwise fun x y => y.2 ≤ x.2)
    {i : (β × γ) × Nat} (h : i ∈ reduce_fav_item_aux exist data) :
    data.find? (fun j => decide (j.1.1 = i.1.1)) = some i := by
  induction data generalizing exist with
  | nil => simp [reduce_fav_item_aux] at h
  | cons j rest ih =>
    rcases List.pairwise_cons.1 hsorted with ⟨hj, hrest⟩
    simp only [reduce_fav_item_aux] at h
    split at h
    · rename_i hcond
      rcases List.mem_cons.1 h with rfl | h2
      · simp [List.find?_cons]
      · have hne : j.1.1 ≠ i.1.1 := by
          intro heq
          exact (reduce_fav_item_aux_mem h2).2 (heq ▸ List.mem_cons_self _ _)
        rw [List.find?_cons]
        split
        · rename_i hbeq
          exact absurd (eq_of_beq hbeq) hne
        · exact ih hrest h2
    · rename_i hcond
      by_cases hjex : j.1.1 ∈ exist
      · have hi := reduce_fav_item_aux_mem h
        have hne : j.1.1 ≠ i.1.1 := fun heq => hi.2 (heq ▸ hjex)
        rw [List.find?_cons]
        split
        · rename_i hbeq
          exact absurd (eq_of_beq hbeq) hne
        · exact ih hrest h
      · have hj2 : ¬ 0 < j.2 := by
          intro hpos
          exact hcond ⟨hpos, hjex⟩
        have hi := reduce_fav_item_aux_mem h
        have himem : i ∈ rest := (reduce_fav_item_aux_sublist exist rest).subset h
        have : i.2 ≤ j.2 := hj i himem
        omega

end Favorites

/-! Date filter.  Timestamps are embedded as integer microsecond offsets from
an arbitrary epoch (Python `datetime` is microsecond-precision).  A parsed
calendar date is the midnight instant of that day.
`timedelta(days=1, microseconds=-1)` is `86400000000 - 1` microseconds. -/

def microsecondsPerDay : Int := 86400000000

/-- Date-filter pass predicate from `main`:
`start_date = dateutil.parser.parse(args.startDate)` and
`end_date = dateutil.parser.parse(args.endDate) + timedelta(days=1, microseconds=-1)`;
a record is skipped when `chatline.timestamp < start_date` (if a start is
given) or `chatline.timestamp >= end_date` (if an end is given).
Records lacking a timestamp: Modelled from the spec: the classifier
(`chatline.py`, imported from the repository's directory but not under
`src/`) determines what an absent timestamp compares like; the spec states
such a record "bypasses the filter (is never excluded by it)", embedded
here as the `none` branch. -/
def passesDateFilter (startDate endDate : Option Int) (t : Option Int) : Bool :=
  match t with
  | none => true
  | some ts =>
    (match startDate with
     | none => true
     | some s => !(decide (ts < s))) &&
    (match endDate with
     | none => true
     | some e => !(decide (e + microsecondsPerDay - 1 ≤ ts)))

/-! Bar chart renderer.  Python's float arithmetic is embedded as exact
rational arithmetic (the quantities involved, `total / length` and
`value / scale` on counts, are exact in IEEE double for every count below
`2^51`, and the claims are stated over the exact values).  A float division
by zero raises `ZeroDivisionError` in Python; a raising computation is
embedded as `none`. -/

/-- Python float division: raises (`none`) when the divisor is zero. -/
def pyDiv (a b : ℚ) : Option ℚ := if b = 0 then none else some (a / b)

/-- `filledLength = int(value / (total / length))` from `printBar`.  `int()`
truncates toward zero; every operand here is a nonnegative count, where
truncation coincides with the floor. -/
def printBarFilled (value total L : Nat) : Option Int :=
  (pyDiv (total : ℚ) (L : ℚ)).bind fun scale =>
    (pyDiv (value : ℚ) scale).map fun q => ⌊q⌋

/-- Python's `max` over a nonempty list (`max([...])`); the `[]` case is
unreachable in the source (guarded or recomputed) and mapped to 0, matching
the one guarded use `... if len(data) else 0`. -/
def pyMaxNat : List Nat → Nat
  | [] => 0
  | x :: xs => xs.foldl max x

/-- Observable outcome of `printBarChart`: either the single `"Empty data"`
line, or one rendered bar row `(paddedLabel, filledLength, value)` per entry. -/
inductive BarChartOut : Type where
  | emptyData : BarChartOut
  | bars : List (PyStr × Int × Nat) → BarChartOut
deriving DecidableEq

/-- The `for i in data: printBar(...)` loop of `printBarChart`: each entry's
label is right-padded to the longest label's width and its bar is rendered
by `printBar`; a raising `printBar` call aborts the loop (`none`). -/
def renderRows (total L maxLabelLen : Nat) : List (PyStr × Nat) → Option (List (PyStr × Int × Nat))
  | [] => some []
  | p :: ps =>
    match printBarFilled p.2 total L, renderRows total L maxLabelLen ps with
    | some f, some rest =>
      some ((p.1 ++ List.replicate (maxLabelLen - p.1.length) ' ', f, p.2) :: rest)
    | _, _ => none

/-- `printBarChart(data)` from the source with bar length `L` (the source
passes `length=50`): empty data short-circuits to the `"Empty data"` line;
otherwise `total = max([x[1] for x in data])`, the maximum label width is
taken (via sorting labels by length, i.e. the maximum length), and each
entry is rendered by `printBar`. -/
def printBarChart (data : List (PyStr × Nat)) (L : Nat) : Option BarChartOut :=
  if data.length ≤ 0 then some BarChartOut.emptyData
  else
    (renderRows (pyMaxNat (data.map Prod.snd)) L
      (pyMaxNat (data.map fun p => p.1.length)) data).map BarChartOut.bars

/-! Calendar heatmap renderer (`printCalendar`).  The activity mapping is an
association list from `(weekdayName, twoDigitHour)` to a count;
`max_val = float(data[max(data, key=data.get)]) if len(data) else 0` is the
maximum value present (0 for an empty mapping), and
`ticks = [0, 0.25*max_val, 0.50*max_val, 0.75*max_val]`.  Color escape
codes are formatting-only and dropped: a cell is embedded as the glyph text
it prints. -/

/-- `max_val` of `printCalendar`. -/
def calendarMaxVal (data : List ((PyStr × PyStr) × Nat)) : Nat :=
  pyMaxNat (data.map Prod.snd)

/-- One grid cell of `printCalendar`: the `"no data"` glyph `===` when the
key is absent, otherwise the strict greater-than cascade against
`ticks[3]`, `ticks[2]`, `ticks[1]`. -/
def calendarTick (data : List ((PyStr × PyStr) × Nat)) (key : PyStr × PyStr) : PyStr :=
  match data.lookup key with
  | some v =>
    if (v : ℚ) > 0.75 * (calendarMaxVal data : ℚ) then "███".data
    else if (v : ℚ) > 0.50 * (calendarMaxVal data : ℚ) then "▓▓▓".data
    else if (v : ℚ) > 0.25 * (calendarMaxVal data : ℚ) then "▒▒▒".data
    else "░░░".data
  | none => "===".data

/-- `chat_counter['fav_word']` after reduction but before `reduce_fav_item`:
`reduce_and_sort([x for x in chat_counter['fav_word'] if filter_single_word(x[1])])`
— pairs are filtered on the word component only and counted as they are
(the word is lower-cased solely inside `filter_single_word`'s stop-word
test, never in the counted key). -/
def favWordTable (stop_words : List PyStr) (pairs : List (PyStr × PyStr)) :
    List ((PyStr × PyStr) × Nat) :=
  reduce_and_sort (pairs.filter fun x => filter_single_word stop_words x.2)

/-! Report sections of `main`.  Each `print` of a section becomes one
`SectionItem`; header/stat texts and colored formatting are carried as the
printed label and computed value.  `demojize` (the external `emoji`
library) is a parameter. -/

inductive SectionItem : Type where
  | rule : SectionItem
  | title : PyStr → SectionItem
  | statNat : PyStr → Nat → SectionItem
  | statRat : PyStr → ℚ → SectionItem
  | blank : SectionItem
  | chart : Option BarChartOut → SectionItem
  | dashes : SectionItem
  | otherSummary : Nat → Nat → SectionItem
deriving DecidableEq

/-- Recognizes the "Other ... | ..." overflow summary line. -/
def isOtherSummary : SectionItem → Bool
  | SectionItem.otherSummary _ _ => true
  | _ => false

/-- Senders section (`"chat" in args.mode`): stats, truncated bar chart, and
an "Other from {n} member | {sum}" line iff `len(data) > args.size`. -/
def sendersSection (data : List (PyStr × Nat)) (size : Nat) : List SectionItem :=
  [SectionItem.rule, SectionItem.title "Chat Count by Sender".data, SectionItem.rule,
   SectionItem.statNat "Active Sender".data data.length,
   SectionItem.statNat "Total Chat".data (data.map Prod.snd).sum,
   SectionItem.statRat "Average".data
     (if data.length = 0 then 0 else ((data.map Prod.snd).sum : ℚ) / (data.length : ℚ)),
   SectionItem.blank,
   SectionItem.chart (printBarChart (data.take size) 50)]
  ++ (if size < data.length then
        [SectionItem.dashes,
         SectionItem.otherSummary (data.drop size).length ((data.drop size).map Prod.snd).sum]
      else [])
  ++ [SectionItem.blank, SectionItem.blank]

/-- Domains section (`"url" in args.mode`). -/
def domainsSection (data : List (PyStr × Nat)) (size : Nat) : List SectionItem :=
  [SectionItem.rule, SectionItem.title "Mentioned Domain (Shared Link/URL)".data,
   SectionItem.rule,
   SectionItem.statNat "Domain Count".data data.length,
   SectionItem.statNat "Mention Count".data (data.map Prod.snd).sum,
   SectionItem.blank,
   SectionItem.chart (printBarChart (data.take size) 50)]
  ++ (if size < data.length then
        [SectionItem.dashes,
         SectionItem.otherSummary (data.drop size).length ((data.drop size).map Prod.snd).sum]
      else [])
  ++ [SectionItem.blank, SectionItem.blank]

/-- Emoji section (`"emoji" in args.mode`): the table is relabelled with
`x[0] + " (" + emoji.demojize(x[0]) + ") "` before any use. -/
def emojisSection (demojize : PyStr → PyStr) (rawData : List (PyStr × Nat)) (size : Nat) :
    List SectionItem :=
  (fun data =>
    [SectionItem.rule, SectionItem.title "Used Emoji".data, SectionItem.rule,
     SectionItem.statNat "Unique Emoji".data data.length,
     SectionItem.statNat "Total Count".data (data.map Prod.snd).sum,
     SectionItem.blank,
     SectionItem.chart (printBarChart (data.take size) 50)]
    ++ (if size < data.length then
          [SectionItem.dashes,
           SectionItem.otherSummary (data.drop size).length ((data.drop size).map Prod.snd).sum]
        else [])
    ++ [SectionItem.blank, SectionItem.blank])
  (rawData.map fun p => (p.1 ++ " (".data ++ demojize p.1 ++ ") ".data, p.2))

/-- Favorite-emoji subsection: relabelled truncated chart only — the source
renders no "Other" overflow line here. -/
def favEmojiSection (demojize : PyStr → PyStr) (data : List ((PyStr × PyStr) × Nat))
    (size : Nat) : List SectionItem :=
  [SectionItem.rule, SectionItem.title "Favorite Emoji by Member".data, SectionItem.rule,
   SectionItem.blank,
   SectionItem.chart (printBarChart
     ((data.map fun p =>
        (p.1.1 ++ " | ".data ++ p.1.2 ++ " | (".data ++ demojize p.1.2 ++ ")".data, p.2)).take
       size) 50),
   SectionItem.blank, SectionItem.blank]

/-- Words section (`"word" in args.mode`). -/
def wordsSection (data : List (PyStr × Nat)) (size : Nat) : List SectionItem :=
  [SectionItem.rule, SectionItem.title "Used Word".data, SectionItem.rule,
   SectionItem.statNat "Unique Word".data data.length,
   SectionItem.statNat "Total Count".data (data.map Prod.snd).sum,
   SectionItem.blank,
   SectionItem.chart (printBarChart (data.take size) 50)]
  ++ (if size < data.length then
        [SectionItem.dashes,
         SectionItem.otherSummary (data.drop size).length ((data.drop size).map Prod.snd).sum]
      else [])
  ++ [SectionItem.blank, SectionItem.blank]

/-- Favorite-word subsection: relabelled truncated chart only — the source
renders no "Other" overflow line here. -/
def favWordSection (data : List ((PyStr × PyStr) × Nat)) (size : Nat) : List SectionItem :=
  [SectionItem.rule, SectionItem.title "Favorite Word by Member".data, SectionItem.rule,
   SectionItem.blank,
   SectionItem.chart (printBarChart
     ((data.map fun p => (p.1.1 ++ " | ".data ++ p.1.2 ++ " | ".data, p.2)).take size) 50),
   SectionItem.blank, SectionItem.blank]

/-! ## Claim theorems -/

/-- C1: for every input multiset, `reduce_and_sort` returns the (key, count)
pairs sorted by count descending, and keys with equal counts appear in the
relative order of their first appearance in the input (the order of
`counterItems`, whose key sequence `firstKeys` is a duplicate-free
subsequence of the input listing each key at its first appearance); in
particular `rank([b,a,b,a]) = [(b,2),(a,2)]`, not `[(a,2),(b,2)]`. -/
theorem rank_sorted_with_arrival_tiebreak {α : Type} [DecidableEq α] (data : List α) :
    ((reduce_and_sort data).Pairwise fun x y => y.2 ≤ x.2) ∧
    (∀ c : Nat, (reduce_and_sort data).filter (fun p => p.2 == c)
        = (counterItems data).filter (fun p => p.2 == c)) ∧
    (counterItems data).map Prod.fst = firstKeys data ∧
    (firstKeys data).Sublist data ∧ (firstKeys data).Nodup ∧
    reduce_and_sort ["b".data, "a".data, "b".data, "a".data]
      = [("b".data, 2), ("a".data, 2)] := by
  refine ⟨sortByCountDesc_sorted _, fun c => filter_sortByCountDesc _ c, ?_,
    sublist_firstKeys, nodup_firstKeys, by decide⟩
  simp [counterItems, List.map_map, Function.comp_def]

/-- C2: the counts in `reduce_and_sort data` sum to the number of elements of
the input multiset. -/
theorem rank_counts_sum_to_size {α : Type} [DecidableEq α] (data : List α) :
    ((reduce_and_sort data).map Prod.snd).sum = data.length := by
  have hperm := (sortByCountDesc_perm (counterItems data)).map Prod.snd
  rw [reduce_and_sort, hperm.sum_eq, counterItems, List.map_map]
  simpa [Function.comp] using sum_counts_firstKeys data

/-- C6: a token is counted by the word filter iff its length is > 1, it is
entirely alphanumeric, it is not entirely numeric, and its lower-cased form
is not a stop word — and counting is performed on the lower-cased form: the
multiplicity of `v` in the filtered stream equals the number of input tokens
satisfying the filter whose lower-casing is `v`.  Concretely, with stop-word
set `{"the"}`: `"hi"` is kept lower-cased, `"123"`, `"a"` and `"The"` are
excluded. -/
theorem word_filter_spec (stop_words : List PyStr) (ws : List PyStr) (v : PyStr) :
    (reduce_and_filter_words stop_words ws).count v
      = ws.countP (fun w => filter_single_word stop_words w && (pyLower w == v)) ∧
    reduce_and_filter_words ["the".data] ["hi".data, "123".data, "a".data, "The".data]
      = ["hi".data] := by
  constructor
  · rw [reduce_and_filter_words, List.count_eq_countP, List.countP_map, List.countP_filter]
    refine List.countP_congr ?_
    intro w _
    simp [Function.comp, Bool.and_comm]
  · decide

/-- C7 counterexample: the final microsecond instant of the end date
(`t = endDate + 1 day − 1 µs`, here with `endDate = 0`) satisfies the
claim's pass condition `t < endDate + 1 day` yet is excluded by the code,
whose bound is `endDate + timedelta(days=1, microseconds=-1)` with
`timestamp >= end_date` skipped. -/
theorem date_filter_end_bound_cex :
    passesDateFilter none (some 0) (some (microsecondsPerDay - 1)) = false ∧
    microsecondsPerDay - 1 < 0 + microsecondsPerDay := by
  decide

/-- C7 (amended): a record with timestamp `t` passes iff `t ≥ startDate`
(when given) and `t < endDate + 1 day − 1 microsecond` (when given) — at any
timestamp resolution coarser than one microsecond this is full-day
inclusivity, but the final microsecond instant of the end date is excluded;
a record whose timestamp is absent always passes the filter. -/
theorem date_filter_spec (s e : Option Int) (t : Int) :
    (passesDateFilter s e (some t) = true ↔
      ((∀ s0, s = some s0 → s0 ≤ t) ∧
       (∀ e0, e = some e0 → t < e0 + microsecondsPerDay - 1))) ∧
    passesDateFilter s e none = true := by
  constructor
  · cases s <;> cases e <;> simp [passesDateFilter] <;> omega
  · rfl

/-- C5: on a ranked (count-descending) pair table, `reduce_fav_item` returns
an order-preserving subsequence of the input whose first keys are pairwise
distinct, every emitted entry has a positive count (entries with count ≤ 0
are excluded), and each emitted entry is the first — hence
highest-ranked — entry of the table carrying its first key. -/
theorem favorites_spec {β γ : Type} [DecidableEq β] (data : List ((β × γ) × Nat))
    (hsorted : data.Pairwise fun x y => y.2 ≤ x.2) :
    (reduce_fav_item data).Sublist data ∧
    ((reduce_fav_item data).map fun i => i.1.1).Nodup ∧
    (∀ i ∈ reduce_fav_item data, 0 < i.2) ∧
    (∀ i ∈ reduce_fav_item data, data.find? (fun j => decide (j.1.1 = i.1.1)) = some i) :=
  ⟨reduce_fav_item_aux_sublist [] data,
   reduce_fav_item_aux_nodup [] data,
   fun _ hi => (reduce_fav_item_aux_mem hi).1,
   fun _ hi => reduce_fav_item_aux_find hsorted hi⟩

/-- Ranked demo pair table: sender A's best pairing, sender B's, then a
lower-ranked repeat of sender A. -/
def favDemo : List ((PyStr × PyStr) × Nat) :=
  [(("A".data, "x".data), 2), (("B".data, "y".data), 2), (("A".data, "z".data), 1)]

/-- Closed instance of `favorites_spec` on `favDemo`. -/
theorem favorites_spec_witness :
    (favDemo.Pairwise fun x y => y.2 ≤ x.2) ∧
    ((reduce_fav_item favDemo).Sublist favDemo ∧
     ((reduce_fav_item favDemo).map fun i => i.1.1).Nodup ∧
     (∀ i ∈ reduce_fav_item favDemo, 0 < i.2) ∧
     (∀ i ∈ reduce_fav_item favDemo, favDemo.find? (fun j => decide (j.1.1 = i.1.1)) = some i)) :=
  ⟨by decide, favorites_spec favDemo (by decide)⟩

/-- Glyph selected by `printCalendar` for a present cell value `v`, as a
function of the maximum: the strict greater-than cascade against
`ticks[3] = 0.75·maxVal`, `ticks[2] = 0.50·maxVal`, `ticks[1] = 0.25·maxVal`. -/
def tickOf (v m : ℚ) : PyStr :=
  if v > 0.75 * m then "███".data
  else if v > 0.50 * m then "▓▓▓".data
  else if v > 0.25 * m then "▒▒▒".data
  else "░░░".data

theorem calendarTick_eq_tickOf {data : List ((PyStr × PyStr) × Nat)}
    {key : PyStr × PyStr} {v : Nat} (h : data.lookup key = some v) :
    calendarTick data key = tickOf v (calendarMaxVal data) := by
  simp [calendarTick, tickOf, h]

theorem tickOf_eq_level4_iff (v m : ℚ) : tickOf v m = "███".data ↔ v > 0.75 * m := by
  unfold tickOf
  by_cases h1 : v > 0.75 * m
  · simp [h1]
  · rw [if_neg h1]
    constructor
    · intro he
      exfalso
      by_cases h2 : v > 0.50 * m
      · rw [if_pos h2] at he; exact absurd he (by decide)
      · rw [if_neg h2] at he
        by_cases h3 : v > 0.25 * m
        · rw [if_pos h3] at he; exact absurd he (by decide)
        · rw [if_neg h3] at he; exact absurd he (by decide)
    · intro hv; exact absurd hv h1

theorem tickOf_eq_level3_iff (v m : ℚ) :
    tickOf v m = "▓▓▓".data ↔ (v ≤ 0.75 * m ∧ v > 0.50 * m) := by
  unfold tickOf
  by_cases h1 : v > 0.75 * m
  · rw [if_pos h1]
    constructor
    · intro he; exact absurd he (by decide)
    · rintro ⟨hle, _⟩; exact absurd h1 (not_lt.2 hle)
  · rw [if_neg h1]
    by_cases h2 : v > 0.50 * m
    · rw [if_pos h2]
      simp [h2, not_lt.1 h1]
    · rw [if_neg h2]
      constructor
      · intro he
        exfalso
        by_cases h3 : v > 0.25 * m
        · rw [if_pos h3] at he; exact absurd he (by decide)
        · rw [if_neg h3] at he; exact absurd he (by decide)
      · rintro ⟨_, hgt⟩; exact absurd hgt h2

theorem tickOf_eq_level2_iff (v m : ℚ) (hm : 0 ≤ m) :
    tickOf v m = "▒▒▒".data ↔ (v ≤ 0.50 * m ∧ v > 0.25 * m) := by
  unfold tickOf
  by_cases h1 : v > 0.75 * m
  · rw [if_pos h1]
    constructor
    · intro he; exact absurd he (by decide)
    · rintro ⟨hle, _⟩; nlinarith
  · rw [if_neg h1]
    by_cases h2 : v > 0.50 * m
    · rw [if_pos h2]
      constructor
      · intro he; exact absurd he (by decide)
      · rintro ⟨hle, _⟩; exact absurd h2 (not_lt.2 hle)
    · rw [if_neg h2]
      by_cases h3 : v > 0.25 * m
      · rw [if_pos h3]
        simp [h3, not_lt.1 h2]
      · rw [if_neg h3]
        constructor
        · intro he; exact absurd he (by decide)
        · rintro ⟨_, hgt⟩; exact absurd hgt h3

theorem tickOf_eq_level1_iff (v m : ℚ) (hm : 0 ≤ m) :
    tickOf v m = "░░░".data ↔ v ≤ 0.25 * m := by
  unfold tickOf
  by_cases h1 : v > 0.75 * m
  · rw [if_pos h1]
    constructor
    · intro he; exact absurd he (by decide)
    · intro hle; nlinarith
  · rw [if_neg h1]
    by_cases h2 : v > 0.50 * m
    · rw [if_pos h2]
      constructor
      · intro he; exact absurd he (by decide)
      · intro hle; nlinarith
    · rw [if_neg h2]
      by_cases h3 : v > 0.25 * m
      · rw [if_pos h3]
        constructor
        · intro he; exact absurd he (by decide)
        · intro hle; exact absurd h3 (not_lt.2 hle)
      · rw [if_neg h3]
        simp [not_lt.1 h3]

/-- Demo activity mapping with maximum 10 and a cell of count 5. -/
def heatDemo : List ((PyStr × PyStr) × Nat) :=
  [(("Monday".data, "09".data), 5), (("Tuesday".data, "10".data), 10)]

/-- C3: a present heatmap cell is classified by strict greater-than
comparison against 0.75/0.50/0.25 of the maximum count present, highest
bucket first, so a value exactly equal to a threshold falls in the lower
bucket, and an absent (day, hour) key renders the "no data" glyph `===`
regardless of the other cells; concretely, in `heatDemo` (maximum 10) the
cell of count 5 gets the level-2 glyph `▒▒▒` and an absent key renders
`===`. -/
theorem heatmap_bucket_spec (data : List ((PyStr × PyStr) × Nat))
    (key : PyStr × PyStr) (v : Nat) (h : data.lookup key = some v) :
    ((calendarTick data key = "███".data ↔
        (v : ℚ) > 0.75 * (calendarMaxVal data : ℚ)) ∧
     (calendarTick data key = "▓▓▓".data ↔
        ((v : ℚ) ≤ 0.75 * (calendarMaxVal data : ℚ) ∧
         (v : ℚ) > 0.50 * (calendarMaxVal data : ℚ))) ∧
     (calendarTick data key = "▒▒▒".data ↔
        ((v : ℚ) ≤ 0.50 * (calendarMaxVal data : ℚ) ∧
         (v : ℚ) > 0.25 * (calendarMaxVal data : ℚ))) ∧
     (calendarTick data key = "░░░".data ↔
        (v : ℚ) ≤ 0.25 * (calendarMaxVal data : ℚ))) ∧
    (∀ key2, data.lookup key2 = none → calendarTick data key2 = "===".data) ∧
    calendarMaxVal heatDemo = 10 ∧
    calendarTick heatDemo ("Monday".data, "09".data) = "▒▒▒".data ∧
    calendarTick heatDemo ("Wednesday".data, "11".data) = "===".data := by
  have hm : (0 : ℚ) ≤ (calendarMaxVal data : ℚ) := Nat.cast_nonneg _
  have ht := calendarTick_eq_tickOf h
  refine ⟨⟨?_, ?_, ?_, ?_⟩, ?_, by decide, ?_, ?_⟩
  · rw [ht]; exact tickOf_eq_level4_iff _ _
  · rw [ht]; exact tickOf_eq_level3_iff _ _
  · rw [ht]; exact tickOf_eq_level2_iff _ _ hm
  · rw [ht]; exact tickOf_eq_level1_iff _ _ hm
  · intro key2 h2
    simp [calendarTick, h2]
  · have h5 : heatDemo.lookup ("Monday".data, "09".data) = some 5 := by decide
    rw [calendarTick_eq_tickOf h5, show calendarMaxVal heatDemo = 10 from by decide]
    rw [tickOf, if_neg (by norm_num), if_neg (by norm_num), if_pos (by norm_num)]
  · have hnone : heatDemo.lookup ("Wednesday".data, "11".data) = none := by decide
    simp [calendarTick, hnone]

/-- Closed instance of `heatmap_bucket_spec` on `heatDemo` at the count-5
cell. -/
theorem heatmap_bucket_spec_witness :
    heatDemo.lookup ("Monday".data, "09".data) = some 5 ∧
    (((calendarTick heatDemo ("Monday".data, "09".data) = "███".data ↔
        ((5 : Nat) : ℚ) > 0.75 * (calendarMaxVal heatDemo : ℚ)) ∧
      (calendarTick heatDemo ("Monday".data, "09".data) = "▓▓▓".data ↔
        (((5 : Nat) : ℚ) ≤ 0.75 * (calendarMaxVal heatDemo : ℚ) ∧
         ((5 : Nat) : ℚ) > 0.50 * (calendarMaxVal heatDemo : ℚ))) ∧
      (calendarTick heatDemo ("Monday".data, "09".data) = "▒▒▒".data ↔
        (((5 : Nat) : ℚ) ≤ 0.50 * (calendarMaxVal heatDemo : ℚ) ∧
         ((5 : Nat) : ℚ) > 0.25 * (calendarMaxVal heatDemo : ℚ))) ∧
      (calendarTick heatDemo ("Monday".data, "09".data) = "░░░".data ↔
        ((5 : Nat) : ℚ) ≤ 0.25 * (calendarMaxVal heatDemo : ℚ))) ∧
     (∀ key2, heatDemo.lookup key2 = none → calendarTick heatDemo key2 = "===".data) ∧
     calendarMaxVal heatDemo = 10 ∧
     calendarTick heatDemo ("Monday".data, "09".data) = "▒▒▒".data ∧
     calendarTick heatDemo ("Wednesday".data, "11".data) = "===".data) :=
  ⟨by decide, heatmap_bucket_spec heatDemo ("Monday".data, "09".data) 5 (by decide)⟩

theorem le_foldl_max (a : Nat) (l : List Nat) : a ≤ l.foldl max a := by
  induction l generalizing a with
  | nil => exact le_refl a
  | cons y ys ih => exact le_trans (le_max_left a y) (ih (max a y))

theorem head_le_pyMaxNat (a : Nat) (l : List Nat) : a ≤ pyMaxNat (a :: l) :=
  le_foldl_max a l

theorem renderRows_pos (total L ml : Nat) (htot : 0 < total) (hL : 0 < L)
    (rows : List (PyStr × Nat)) :
    renderRows total L ml rows =
      some (rows.map fun p =>
        (p.1 ++ List.replicate (ml - p.1.length) ' ',
         ⌊(p.2 : ℚ) / ((total : ℚ) / (L : ℚ))⌋, p.2)) := by
  have hLq : (L : ℚ) ≠ 0 := Nat.cast_ne_zero.2 (Nat.pos_iff_ne_zero.1 hL)
  have htq : (total : ℚ) ≠ 0 := Nat.cast_ne_zero.2 (Nat.pos_iff_ne_zero.1 htot)
  have hsc : (total : ℚ) / (L : ℚ) ≠ 0 := div_ne_zero htq hLq
  induction rows with
  | nil => rfl
  | cons p ps ih =>
    simp [renderRows, printBarFilled, pyDiv, hLq, hsc, ih]

/-- C4: for nonempty truncated input with a positive maximum count and bar
length `L`, the scale is `max(counts) / L` and every entry's bar length is
`⌊count / scale⌋` cells; for `[("A",10),("B",5)]` and `L = 50` the bars are
50 and 25 cells; empty input yields exactly the `"Empty data"` line (the
guarded branch, before any bar computation). -/
theorem bar_chart_spec (data : List (PyStr × Nat)) (L : Nat) (hne : data ≠ [])
    (hmax : 0 < pyMaxNat (data.map Prod.snd)) (hL : 0 < L) :
    printBarChart data L = some (BarChartOut.bars (data.map fun p =>
      (p.1 ++ List.replicate (pyMaxNat (data.map fun q => q.1.length) - p.1.length) ' ',
       ⌊(p.2 : ℚ) / ((pyMaxNat (data.map Prod.snd) : ℚ) / (L : ℚ))⌋, p.2))) ∧
    printBarChart [] L = some BarChartOut.emptyData ∧
    printBarChart [("A".data, 10), ("B".data, 5)] 50
      = some (BarChartOut.bars [("A".data, 50, 10), ("B".data, 25, 5)]) := by
  have hgen : ∀ (d : List (PyStr × Nat)) (L0 : Nat), d ≠ [] →
      0 < pyMaxNat (d.map Prod.snd) → 0 < L0 →
      printBarChart d L0 = some (BarChartOut.bars (d.map fun p =>
        (p.1 ++ List.replicate (pyMaxNat (d.map fun q => q.1.length) - p.1.length) ' ',
         ⌊(p.2 : ℚ) / ((pyMaxNat (d.map Prod.snd) : ℚ) / (L0 : ℚ))⌋, p.2))) := by
    intro d L0 hne0 hmax0 hL0
    have hlen : ¬ d.length ≤ 0 := by
      cases d with
      | nil => exact absurd rfl hne0
      | cons p ps => simp
    rw [printBarChart, if_neg hlen, renderRows_pos _ _ _ hmax0 hL0]
    rfl
  refine ⟨hgen data L hne hmax hL, rfl, ?_⟩
  rw [hgen [("A".data, 10), ("B".data, 5)] 50 (by decide) (by decide) (by decide)]
  have e1 : pyMaxNat ([("A".data, 10), ("B".data, 5)].map Prod.snd) = 10 := by decide
  have e2 : pyMaxNat ([("A".data, 10), ("B".data, 5)].map fun q => q.1.length) = 1 := by
    decide
  rw [e1, e2]
  have f1 : ⌊(10 : ℚ) / ((10 : ℚ) / (50 : ℚ))⌋ = 50 := by norm_num
  have f2 : ⌊(5 : ℚ) / ((10 : ℚ) / (50 : ℚ))⌋ = 25 := by norm_num
  simp only [List.map_cons, List.map_nil]
  norm_num [f1, f2]

/-- Closed instance of `bar_chart_spec` on `[("A",10),("B",5)]` with
`L = 50`. -/
theorem bar_chart_spec_witness :
    ([("A".data, 10), ("B".data, 5)] : List (PyStr × Nat)) ≠ [] ∧
    0 < pyMaxNat (([("A".data, 10), ("B".data, 5)] : List (PyStr × Nat)).map Prod.snd) ∧
    0 < 50 ∧
    (printBarChart [("A".data, 10), ("B".data, 5)] 50
        = some (BarChartOut.bars (([("A".data, 10), ("B".data, 5)] :
            List (PyStr × Nat)).map fun p =>
          (p.1 ++ List.replicate
            (pyMaxNat (([("A".data, 10), ("B".data, 5)] :
              List (PyStr × Nat)).map fun q => q.1.length) - p.1.length) ' ',
           ⌊(p.2 : ℚ) / ((pyMaxNat (([("A".data, 10), ("B".data, 5)] :
              List (PyStr × Nat)).map Prod.snd) : ℚ) / ((50 : Nat) : ℚ))⌋, p.2))) ∧
      printBarChart [] 50 = some BarChartOut.emptyData ∧
      printBarChart [("A".data, 10), ("B".data, 5)] 50
        = some (BarChartOut.bars [("A".data, 50, 10), ("B".data, 25, 5)])) :=
  ⟨by decide, by decide, by decide,
   bar_chart_spec [("A".data, 10), ("B".data, 5)] 50 (by decide) (by decide) (by decide)⟩

/-- C8 counterexample: on the nonempty input `[("A", 0)]` the computed scale
`total / length = 0 / 50` is zero and `printBar`'s division
`value / (total / length)` raises `ZeroDivisionError` (`none`) — there is no
explicit zero-length-bar branch in the source. -/
theorem bar_chart_zero_scale_cex :
    printBarChart [("A".data, 0)] 50 = none ∧ printBarFilled 0 0 50 = none := by
  have hf : printBarFilled 0 0 50 = none := by
    rw [printBarFilled]
    rw [show pyDiv ((0 : Nat) : ℚ) ((50 : Nat) : ℚ) = some 0 from by
      rw [pyDiv, if_neg (by norm_num)]; norm_num]
    rw [Option.some_bind]
    rw [show pyDiv ((0 : Nat) : ℚ) 0 = none from by rw [pyDiv, if_pos rfl]]
    rfl
  refine ⟨?_, hf⟩
  rw [printBarChart, if_neg (by decide)]
  rw [show pyMaxNat ([("A".data, 0)].map Prod.snd) = 0 from by decide]
  rw [renderRows]
  rw [show pyMaxNat ([("A".data, 0)].map fun p => p.1.length) = 1 from by decide]
  rw [hf]
  rfl

/-- C8 (amended): the empty-data divide-by-zero case is an explicit guarded
branch, and rendering cannot fail on any table the pipeline passes — every
count produced by `reduce_and_sort` is ≥ 1, so the scale is positive — but
there is no zero-scale branch in `printBar`: a zero maximum count raises
(see the counterexample). -/
theorem bar_chart_no_failure (L : Nat) (hL : 0 < L) (data : List (PyStr × Nat))
    (hpos : ∀ p ∈ data, 0 < p.2) :
    (printBarChart data L).isSome = true ∧
    printBarChart [] L = some BarChartOut.emptyData ∧
    (∀ ws : List PyStr, ∀ q ∈ reduce_and_sort ws, 0 < q.2) := by
  refine ⟨?_, rfl, fun ws q hq => reduce_and_sort_count_pos hq⟩
  cases data with
  | nil => rfl
  | cons p ps =>
    have hmax : 0 < pyMaxNat ((p :: ps).map Prod.snd) := by
      have h1 : 0 < p.2 := hpos p (List.mem_cons_self p ps)
      have h2 : p.2 ≤ pyMaxNat (p.2 :: ps.map Prod.snd) := head_le_pyMaxNat _ _
      simpa using lt_of_lt_of_le h1 h2
    rw [printBarChart, if_neg (by simp), renderRows_pos _ _ _ hmax hL]
    rfl

/-- Closed instance of `bar_chart_no_failure` on a singleton positive-count
table. -/
theorem bar_chart_no_failure_witness :
    0 < 50 ∧ (∀ p ∈ ([("A".data, 3)] : List (PyStr × Nat)), 0 < p.2) ∧
    ((printBarChart [("A".data, 3)] 50).isSome = true ∧
     printBarChart [] 50 = some BarChartOut.emptyData ∧
     (∀ ws : List PyStr, ∀ q ∈ reduce_and_sort ws, 0 < q.2)) :=
  ⟨by decide, by decide, bar_chart_no_failure 50 (by decide) [("A".data, 3)] (by decide)⟩

/-- C9 counterexample: the favorite-emoji section of the source renders no
"Other" summary line even when its full table (here 2 entries) exceeds the
sample size (here 1) — the claim demands exactly one. -/
theorem fav_section_no_other_cex :
    (favEmojiSection id [(("u".data, "e".data), 2), (("v".data, "f".data), 1)] 1).filter
      isOtherSummary = [] ∧
    1 < ([(("u".data, "e".data), 2), (("v".data, "f".data), 1)] :
      List ((PyStr × PyStr) × Nat)).length := by
  constructor
  · simp [favEmojiSection, isOtherSummary]
  · decide

/-- C9 (amended): the senders, domains, emojis and words sections render
exactly one "Other" summary line — carrying the number of entries beyond
the sample size and the sum of their counts — iff the full table has more
than `size` entries; the favorite-emoji and favorite-word sections render
none, truncating silently. -/
theorem sections_other_summary (demojize : PyStr → PyStr)
    (sdata ddata edata wdata : List (PyStr × Nat))
    (fdata gdata : List ((PyStr × PyStr) × Nat)) (size : Nat) :
    ((sendersSection sdata size).filter isOtherSummary
      = if size < sdata.length then
          [SectionItem.otherSummary (sdata.drop size).length
            ((sdata.drop size).map Prod.snd).sum]
        else []) ∧
    ((domainsSection ddata size).filter isOtherSummary
      = if size < ddata.length then
          [SectionItem.otherSummary (ddata.drop size).length
            ((ddata.drop size).map Prod.snd).sum]
        else []) ∧
    ((emojisSection demojize edata size).filter isOtherSummary
      = if size < edata.length then
          [SectionItem.otherSummary (edata.drop size).length
            ((edata.drop size).map Prod.snd).sum]
        else []) ∧
    ((wordsSection wdata size).filter isOtherSummary
      = if size < wdata.length then
          [SectionItem.otherSummary (wdata.drop size).length
            ((wdata.drop size).map Prod.snd).sum]
        else []) ∧
    (favEmojiSection demojize fdata size).filter isOtherSummary = [] ∧
    (favWordSection gdata size).filter isOtherSummary = [] := by
  refine ⟨?_, ?_, ?_, ?_, ?_, ?_⟩
  · by_cases hlt : size < sdata.length <;> simp [sendersSection, isOtherSummary, hlt]
  · by_cases hlt : size < ddata.length <;> simp [domainsSection, isOtherSummary, hlt]
  · by_cases hlt : size < edata.length <;>
      simp [emojisSection, isOtherSummary, hlt, List.map_drop, List.map_map,
        Function.comp_def]
  · by_cases hlt : size < wdata.length <;> simp [wordsSection, isOtherSummary, hlt]
  · simp [favEmojiSection, isOtherSummary]
  · simp [favWordSection, isOtherSummary]

/-- C10: in the favorite-word reduction the (sender, word) pairs are counted
on the word's original letter case — every table entry's key is literally an
input pair and its count is the multiplicity of that exact pair among the
pairs passing the word filter (the word is lower-cased only inside the
stop-word test) — so two pairs differing only in the word's case rank as
distinct keys, unlike the global word table, which lower-cases every word
before counting. -/
theorem fav_word_case_sensitive (stop_words : List PyStr) (pairs : List (PyStr × PyStr)) :
    (∀ p ∈ favWordTable stop_words pairs,
      p.1 ∈ pairs ∧
      p.2 = (pairs.filter fun x => filter_single_word stop_words x.2).countP
        (fun x => decide (x = p.1))) ∧
    favWordTable [] [("A".data, "Hi".data), ("A".data, "hi".data)]
      = [(("A".data, "Hi".data), 1), (("A".data, "hi".data), 1)] ∧
    reduce_and_sort (reduce_and_filter_words [] ["Hi".data, "hi".data])
      = [("hi".data, 2)] := by
  refine ⟨?_, by decide, by decide⟩
  intro p hp
  have h := mem_reduce_and_sort hp
  exact ⟨(List.mem_filter.1 h.1).1, h.2⟩

/-- Closed instance of `fav_word_case_sensitive` at the case-distinct pair
table. -/
theorem fav_word_case_sensitive_witness :
    ((("A".data, "Hi".data), 1) ∈ favWordTable [] [("A".data, "Hi".data),
      ("A".data, "hi".data)]) ∧
    ((("A".data, "Hi".data), 1).1 ∈ ([("A".data, "Hi".data), ("A".data, "hi".data)] :
        List (PyStr × PyStr)) ∧
      (("A".data, "Hi".data), 1).2
        = (([("A".data, "Hi".data), ("A".data, "hi".data)] :
            List (PyStr × PyStr)).filter fun x => filter_single_word [] x.2).countP
          (fun x => decide (x = (("A".data, "Hi".data), 1).1))) :=
  ⟨by decide,
   (fav_word_case_sensitive [] [("A".data, "Hi".data), ("A".data, "hi".data)]).1
     (("A".data, "Hi".data), 1) (by decide)⟩

/-- Closed instance of `date_filter_spec` at concrete bounds and timestamp. -/
theorem date_filter_spec_witness :
    (passesDateFilter (some 0) (some 0) (some 5) = true ↔
      ((∀ s0, (some (0 : Int)) = some s0 → s0 ≤ 5) ∧
       (∀ e0, (some (0 : Int)) = some e0 → 5 < e0 + microsecondsPerDay - 1))) ∧
    passesDateFilter (some 0) (some 0) none = true :=
  date_filter_spec (some 0) (some 0) 5

end WhatsappAnalyzer
